import Mathlib

/-!
Verification of the WealthLens client data layer: a shallow embedding of the
stock-data service (per-symbol TTL cache, in-flight request de-duplication,
batched multi-symbol fetch, regex extraction of price fields from assistant
text), the real-time data provider (fallback investment table, catch-all
error handling) and the data-context hooks (toggle/refresh, guarded
percentage aggregates).

JavaScript numbers are modelled as `JsNum := Option ℚ`: `some q` is a finite
number, `none` stands for a non-finite value (NaN or an infinity).  All
arithmetic on `none` yields `none` and every comparison with `none` is
`false`, matching NaN's behaviour in the source's comparisons.
-/

set_option autoImplicit false

namespace WealthLens

/-- An exact rational in lowest terms (`den` positive, `gcd num den = 1` for
    every value built through `Frac.norm` and the operations below).  Used in
    place of Mathlib's `ℚ` so that every arithmetic step reduces in the
    kernel and concrete runs can be settled by `decide`. -/
structure Frac where
  num : Int
  den : Nat
  deriving DecidableEq

/-- Normalize a numerator/denominator pair by dividing out the gcd. -/
def Frac.norm (n : Int) (d : Nat) : Frac :=
  let g := Nat.gcd n.natAbs d
  ⟨n / (g : Int), d / g⟩

instance (n : Nat) : OfNat Frac n := ⟨⟨(n : Int), 1⟩⟩

instance : OfScientific Frac :=
  ⟨fun m b e => if b then Frac.norm (m : Int) (10 ^ e) else ⟨((m * 10 ^ e : Nat) : Int), 1⟩⟩

instance : Neg Frac := ⟨fun a => ⟨-a.num, a.den⟩⟩

def Frac.add (a b : Frac) : Frac :=
  Frac.norm (a.num * b.den + b.num * a.den) (a.den * b.den)

def Frac.sub (a b : Frac) : Frac :=
  Frac.norm (a.num * b.den - b.num * a.den) (a.den * b.den)

def Frac.mul (a b : Frac) : Frac :=
  Frac.norm (a.num * b.num) (a.den * b.den)

/-- Exact division (only ever applied to a nonzero divisor). -/
def Frac.div (a b : Frac) : Frac :=
  if 0 ≤ b.num then Frac.norm (a.num * b.den) (a.den * b.num.natAbs)
  else Frac.norm (-(a.num * b.den)) (a.den * b.num.natAbs)

def Frac.fabs (a : Frac) : Frac := ⟨(a.num.natAbs : Int), a.den⟩

/-- Comparison `a ≤ b` by cross multiplication (denominators are positive). -/
def Frac.ble (a b : Frac) : Bool := decide (a.num * b.den ≤ b.num * a.den)

/-- Comparison `a < b` by cross multiplication (denominators are positive). -/
def Frac.blt (a b : Frac) : Bool := decide (a.num * b.den < b.num * a.den)

/-- JavaScript number: `some q` finite, `none` non-finite (NaN/Infinity). -/
abbrev JsNum := Option Frac

/-- JS `+` on numbers (non-finite absorbs). -/
def jsAdd : JsNum → JsNum → JsNum
  | some a, some b => some (a.add b)
  | _, _ => none

/-- JS `-` on numbers (non-finite absorbs). -/
def jsSub : JsNum → JsNum → JsNum
  | some a, some b => some (a.sub b)
  | _, _ => none

/-- JS `*` on numbers (non-finite absorbs). -/
def jsMul : JsNum → JsNum → JsNum
  | some a, some b => some (a.mul b)
  | _, _ => none

/-- JS `/` on numbers; division by zero gives a non-finite value. -/
def jsDiv : JsNum → JsNum → JsNum
  | some a, some b => if b.num = 0 then none else some (a.div b)
  | _, _ => none

/-- JS `Math.abs`. -/
def jsAbs : JsNum → JsNum
  | some a => some a.fabs
  | none => none

/-- JS `Math.min` (NaN propagates). -/
def jsMin : JsNum → JsNum → JsNum
  | some a, some b => if Frac.ble a b then some a else some b
  | _, _ => none

/-- JS `Math.max` (NaN propagates). -/
def jsMax : JsNum → JsNum → JsNum
  | some a, some b => if Frac.ble a b then some b else some a
  | _, _ => none

/-- JS `a > b`: false whenever either side is non-finite (NaN semantics). -/
def jsGt : JsNum → JsNum → Bool
  | some a, some b => Frac.blt b a
  | _, _ => false

/-- JS `a <= b`: false whenever either side is non-finite (NaN semantics). -/
def jsLe : JsNum → JsNum → Bool
  | some a, some b => Frac.ble a b
  | _, _ => false

/-- JS `x.toFixed(2)` followed by `parseFloat`: round to 2 decimals, ties
    toward the larger value, as the ECMAScript `toFixed` spec prescribes
    (`⌊100x + 1/2⌋ / 100`, written over the fraction's fields). -/
def jsRound2 : JsNum → JsNum
  | some a => some (Frac.norm (Int.fdiv (200 * a.num + (a.den : Int)) (2 * (a.den : Int))) 100)
  | none => none

/-- JS `\s` whitespace class (the code points relevant here). -/
def isSpaceJ (c : Char) : Bool :=
  c = ' ' || c = '\t' || c = '\n' || c = '\r' || c.toNat = 11 || c.toNat = 12 ||
  c.toNat = 160 || c.toNat = 0xFEFF || c.toNat = 0x2028 || c.toNat = 0x2029

/-- JS `.` in a regex: any character except a line terminator. -/
def notLineTerm (c : Char) : Bool :=
  !(c = '\n' || c = '\r' || c.toNat = 0x2028 || c.toNat = 0x2029)

/-- Numeric value of a digit string (most significant first). -/
def digitsVal (cs : List Char) : Nat :=
  cs.foldl (fun n c => 10 * n + (c.toNat - '0'.toNat)) 0

/-- JS `parseFloat`: optional leading whitespace and sign, then digits with an
    optional fractional part; trailing junk ignored; NaN (`none`) when no
    digits were consumed. -/
def parseFloatJ (cs : List Char) : JsNum :=
  let cs1 := cs.dropWhile isSpaceJ
  let neg : Bool := match cs1 with
    | '-' :: _ => true
    | _ => false
  let cs2 := match cs1 with
    | '-' :: t => t
    | '+' :: t => t
    | _ => cs1
  let ip := cs2.takeWhile Char.isDigit
  let rest := cs2.dropWhile Char.isDigit
  let fp := match rest with
    | '.' :: t => t.takeWhile Char.isDigit
    | _ => []
  if ip = [] ∧ fp = [] then none
  else
    let n : Int := ((digitsVal ip * 10 ^ fp.length + digitsVal fp : Nat) : Int)
    some (Frac.norm (if neg then -n else n) (10 ^ fp.length))

/-- JS `parseInt` (radix 10): optional leading whitespace and sign, then
    digits; NaN (`none`) when no digits were consumed. -/
def parseIntJ (cs : List Char) : JsNum :=
  let cs1 := cs.dropWhile isSpaceJ
  let neg : Bool := match cs1 with
    | '-' :: _ => true
    | _ => false
  let cs2 := match cs1 with
    | '-' :: t => t
    | '+' :: t => t
    | _ => cs1
  let ip := cs2.takeWhile Char.isDigit
  if ip = [] then none
  else some ⟨if neg then -((digitsVal ip : Nat) : Int) else ((digitsVal ip : Nat) : Int), 1⟩

/-- Model of `String.replace(/,/g, '')` on a captured substring. -/
def stripCommas (cs : List Char) : List Char :=
  cs.filter (fun c => c ≠ ',')

/-!
A small backtracking regex engine covering exactly the constructs used by the
patterns in `stockDataService` and `realTimeDataProvider`: case-insensitive
literals (`/i` flag), single-character classes, greedy `*`/`+`/`?` and lazy
`*?` over character classes, and capture groups over sequences of quantified
classes.  The matcher enumerates candidate remainders in the priority order
JavaScript's backtracking uses (greedy = longest first, lazy = shortest
first), so the head of the enumeration is the JS match.
-/

/-- One quantified or literal element of a pattern. -/
inductive Atom where
  /-- literal characters, matched case-insensitively (the `/i` flag) -/
  | lit (cs : List Char)
  /-- one character of a class -/
  | cls (p : Char → Bool)
  /-- greedy `*` over a class -/
  | starG (p : Char → Bool)
  /-- lazy `*?` over a class -/
  | starL (p : Char → Bool)
  /-- greedy `+` over a class -/
  | plusG (p : Char → Bool)
  /-- greedy `?` over a class -/
  | optG (p : Char → Bool)

/-- A pattern element: a bare atom or a capture group over atoms. -/
inductive Re where
  | atom (a : Atom)
  | group (idx : Nat) (atoms : List Atom)

/-- Captured groups of a match: group index paired with captured characters. -/
abbrev Caps := List (Nat × List Char)

/-- Case-insensitive character comparison (ASCII simple folding). -/
def ciEq (a b : Char) : Bool := a.toLower = b.toLower

/-- Match a literal case-insensitively at the head of the input, returning the
    remainder on success. -/
def matchLit : List Char → List Char → Option (List Char)
  | [], s => some s
  | _ :: _, [] => none
  | p :: ps, c :: cs => if ciEq p c then matchLit ps cs else none

/-- Length of the longest prefix of characters satisfying `p`. -/
def charRun (p : Char → Bool) : List Char → Nat
  | [] => 0
  | c :: t => if p c then charRun p t + 1 else 0

/-- Remainders after consuming `k, k-1, ..., 0` characters (greedy order). -/
def restsDesc (s : List Char) : Nat → List (List Char)
  | 0 => [s]
  | k + 1 => s.drop (k + 1) :: restsDesc s k

/-- Remainders after consuming `0, 1, ..., k` characters (lazy order). -/
def restsAsc (s : List Char) : Nat → List (List Char)
  | 0 => [s]
  | k + 1 => restsAsc s k ++ [s.drop (k + 1)]

/-- Remainders after consuming `k, k-1, ..., 1` characters (greedy `+`). -/
def restsDescPos (s : List Char) : Nat → List (List Char)
  | 0 => []
  | k + 1 => s.drop (k + 1) :: restsDescPos s k

/-- All ways an atom can match a prefix of `s`, as remainders in backtracking
    priority order. -/
def matchAtom : Atom → List Char → List (List Char)
  | .lit pat, s =>
    match matchLit pat s with
    | some r => [r]
    | none => []
  | .cls p, s =>
    match s with
    | c :: t => if p c then [t] else []
    | [] => []
  | .starG p, s => restsDesc s (charRun p s)
  | .starL p, s => restsAsc s (charRun p s)
  | .plusG p, s => restsDescPos s (charRun p s)
  | .optG p, s =>
    match s with
    | c :: t => if p c then [t, c :: t] else [c :: t]
    | [] => [[]]

/-- All ways a sequence of atoms can match a prefix of `s`, in priority
    order. -/
def matchAtoms : List Atom → List Char → List (List Char)
  | [], s => [s]
  | a :: as, s => (matchAtom a s).flatMap (matchAtoms as)

/-- All ways one pattern element can match a prefix of `s`, with captures. -/
def matchRe : Re → List Char → List (Caps × List Char)
  | .atom a, s => (matchAtom a s).map (fun r => ([], r))
  | .group i as, s =>
    (matchAtoms as s).map (fun r => ([(i, s.take (s.length - r.length))], r))

/-- All ways a pattern can match a prefix of `s`, in priority order. -/
def matchSeq : List Re → List Char → List (Caps × List Char)
  | [], s => [([], s)]
  | r :: rs, s =>
    (matchRe r s).flatMap (fun cr => (matchSeq rs cr.2).map (fun cr2 => (cr.1 ++ cr2.1, cr2.2)))

/-- JS `String.prototype.match` without the `g` flag: scan left to right and
    return the captures of the first (leftmost, highest-priority) match. -/
def reSearch (pat : List Re) : List Char → Option Caps
  | [] =>
    match matchSeq pat [] with
    | cr :: _ => some cr.1
    | [] => none
  | c :: t =>
    match matchSeq pat (c :: t) with
    | cr :: _ => some cr.1
    | [] => reSearch pat t

/-- Look up capture group `i` (empty when absent). -/
def capGet (caps : Caps) (i : Nat) : List Char :=
  (caps.lookup i).getD []

/-!
The structured stock quote produced by `stockDataService.parseStockResponse`
and the four labeled-field patterns it matches against the assistant text.
-/

/-- Structure `StockPrice` from `services/stockDataService.ts`. -/
structure StockPriceJ where
  symbol : String
  name : String
  current_price : JsNum
  change : JsNum
  change_percent : JsNum
  previous_close : JsNum
  open' : JsNum
  high : JsNum
  low : JsNum
  volume : JsNum
  market_cap : String
  last_updated : String
  deriving DecidableEq

/-- Class `[\d,]`. -/
def digitComma (c : Char) : Bool := c.isDigit || c = ','

/-- Class `[\d.]`. -/
def digitDot (c : Char) : Bool := c.isDigit || c = '.'

/-- Class `[+-]`. -/
def signChar (c : Char) : Bool := c = '+' || c = '-'

/-- Atoms `[\d,]+\.?\d*` — the amount capture used for price fields. -/
def amountAtoms : List Atom :=
  [.plusG digitComma, .optG (fun c => c = '.'), .starG Char.isDigit]

/-- Pattern `/Current Price.*?₹([\d,]+\.?\d*)/i`. -/
def priceRe : List Re :=
  [.atom (.lit "Current Price".toList), .atom (.starL notLineTerm),
   .atom (.lit "₹".toList), .group 1 amountAtoms]

/-- Pattern `/Change.*?₹([+-]?[\d,]+\.?\d*)\s*\(([+-]?[\d.]+)%\)/i`. -/
def changeRe : List Re :=
  [.atom (.lit "Change".toList), .atom (.starL notLineTerm),
   .atom (.lit "₹".toList), .group 1 (.optG signChar :: amountAtoms),
   .atom (.starG isSpaceJ), .atom (.lit "(".toList),
   .group 2 [.optG signChar, .plusG digitDot], .atom (.lit "%)".toList)]

/-- Pattern `/Previous Close.*?₹([\d,]+\.?\d*)/i`. -/
def previousCloseRe : List Re :=
  [.atom (.lit "Previous Close".toList), .atom (.starL notLineTerm),
   .atom (.lit "₹".toList), .group 1 amountAtoms]

/-- Pattern `/Volume.*?([\d,]+)/i`. -/
def volumeRe : List Re :=
  [.atom (.lit "Volume".toList), .atom (.starL notLineTerm),
   .group 1 [.plusG digitComma]]

/-- The hardcoded symbol → company-name table of `getCompanyName`. -/
def companyNames : List (String × String) :=
  [("AAPL", "Apple Inc."), ("GOOGL", "Alphabet Inc."),
   ("MSFT", "Microsoft Corporation"), ("AMZN", "Amazon.com Inc."),
   ("TSLA", "Tesla Inc."), ("META", "Meta Platforms Inc."),
   ("NVDA", "NVIDIA Corporation"), ("NFLX", "Netflix Inc."),
   ("UBER", "Uber Technologies Inc."), ("SPOT", "Spotify Technology S.A."),
   ("RELIANCE", "Reliance Industries Ltd."), ("TCS", "Tata Consultancy Services Ltd."),
   ("INFY", "Infosys Ltd."), ("HDFC", "HDFC Bank Ltd."),
   ("ICICI", "ICICI Bank Ltd."), ("SBI", "State Bank of India")]

/-- JS `toUpperCase` (character-wise, kernel-reducible). -/
def toUpperJ (s : String) : String := String.mk (s.data.map Char.toUpper)

/-- Model of `StockDataService.getCompanyName`. -/
def getCompanyName (symbol : String) : String :=
  (companyNames.lookup (toUpperJ symbol)).getD (toUpperJ symbol ++ " Corp.")

/-- The shapes `response.answer` can take in `parseStockResponse`:
    an object with a string `answer` field, a plain string, or anything
    else (missing/other types). -/
inductive QueryResponse where
  | objAnswer (answer : String)
  | strAnswer (answer : String)
  | other
  deriving DecidableEq

/-- The content-extraction prelude of `parseStockResponse`. -/
def extractContent : QueryResponse → Option String
  | .objAnswer a => some a
  | .strAnswer a => some a
  | .other => none

/-- The pattern-matching core of `StockDataService.parseStockResponse`,
    applied to the extracted assistant text.  `nowIso` stands for
    `new Date().toISOString()`. -/
def parseStockContent (content symbol nowIso : String) : Option StockPriceJ :=
  let cs := content.toList
  let priceMatch := reSearch priceRe cs
  let changeMatch := reSearch changeRe cs
  let previousCloseMatch := reSearch previousCloseRe cs
  let volumeMatch := reSearch volumeRe cs
  match priceMatch with
  | none => none
  | some pm =>
    let currentPrice := parseFloatJ (stripCommas (capGet pm 1))
    let change := match changeMatch with
      | some m => parseFloatJ (stripCommas (capGet m 1))
      | none => some 0
    let changePercent := match changeMatch with
      | some m => parseFloatJ (capGet m 2)
      | none => some 0
    let previousClose := match previousCloseMatch with
      | some m => parseFloatJ (stripCommas (capGet m 1))
      | none => jsSub currentPrice change
    let volume := match volumeMatch with
      | some m => parseIntJ (stripCommas (capGet m 1))
      | none => some 0
    some { symbol := toUpperJ symbol
           name := getCompanyName symbol
           current_price := currentPrice
           change := change
           change_percent := changePercent
           previous_close := previousClose
           open' := previousClose
           high := jsAdd currentPrice (jsAbs change)
           low := jsSub currentPrice (jsAbs change)
           volume := volume
           market_cap := "N/A"
           last_updated := nowIso }

/-- Model of `StockDataService.parseStockResponse`: extract the answer text and run the
    pattern-matching core; null when the answer has no usable shape. -/
def parseStockResponse (response : QueryResponse) (symbol nowIso : String) : Option StockPriceJ :=
  match extractContent response with
  | none => none
  | some content => parseStockContent content symbol nowIso

/-!
The mutable state of `StockDataService` (`cache` and `pendingRequests` maps)
and the event-loop steps of `getStockPrice`.  The JavaScript runtime is
single threaded: the synchronous prefix of each `getStockPrice` call (cache
check, pending check, issuing the network request and storing the in-flight
promise) runs atomically between awaits, so a burst of concurrent calls is a
sequence of `callArrive` steps followed by a `settleReq` step when the shared
network request settles.  In-flight promises are identified by the counter
`nextId`.
-/

/-- Constant `CACHE_DURATION = 120000` ms (2-minute symbol cache TTL). -/
def CACHE_DURATION : Nat := 120000

/-- The service's mutable maps: `cache` (symbol → data + fetch timestamp),
    `pendingRequests` (symbol → in-flight promise id), plus the id supply. -/
structure SvcState where
  cache : String → Option (StockPriceJ × Nat)
  pending : String → Option Nat
  nextId : Nat

/-- The cache test of `getStockPrice`:
    `cached && Date.now() - cached.timestamp < CACHE_DURATION`. -/
def cacheFresh (s : SvcState) (symbol : String) (now : Nat) : Bool :=
  match s.cache symbol with
  | some (_, ts) => now - ts < CACHE_DURATION
  | none => false

/-- What one arriving `getStockPrice` call does synchronously: return the
    cached value, await an already-pending promise, or issue a fetch. -/
inductive CallRes where
  | cached (p : StockPriceJ)
  | awaits (pid : Nat)
  | fetches (pid : Nat)
  deriving DecidableEq

/-- The cache-miss path of `getStockPrice`: await the pending promise if one
    exists, otherwise create the request, store it in `pendingRequests` and
    issue one network request. -/
def callMiss (symbol : String) (s : SvcState) : CallRes × SvcState × Nat :=
  match s.pending symbol with
  | some pid => (.awaits pid, s, 0)
  | none =>
    (.fetches s.nextId,
     { s with
        pending := fun x => if x = symbol then some s.nextId else s.pending x
        nextId := s.nextId + 1 },
     1)

/-- The synchronous prefix of one `getStockPrice(symbol)` call at time `now`:
    result, new state, and the number of network requests issued (0 or 1). -/
def callArrive (now : Nat) (symbol : String) (s : SvcState) : CallRes × SvcState × Nat :=
  match s.cache symbol with
  | some (p, ts) =>
    if now - ts < CACHE_DURATION then (.cached p, s, 0) else callMiss symbol s
  | none => callMiss symbol s

/-- Settlement of the in-flight request for `symbol`: on success
    (`some p`) `fetchStockData` caches the result; in both outcomes the
    `finally` block deletes the pending entry. -/
def settleReq (symbol : String) (outcome : Option StockPriceJ) (now : Nat) (s : SvcState) : SvcState :=
  let s1 := match outcome with
    | some p => { s with cache := fun x => if x = symbol then some (p, now) else s.cache x }
    | none => s
  { s1 with pending := fun x => if x = symbol then none else s1.pending x }

/-- A burst of `getStockPrice(symbol)` calls arriving at the given times (all
    before the shared request settles): the per-call results, the final
    state, and the total number of network requests issued. -/
def runCalls (symbol : String) (s : SvcState) : List Nat → List CallRes × SvcState × Nat
  | [] => ([], s, 0)
  | t :: ts =>
    let step := callArrive t symbol s
    let rest := runCalls symbol step.2.1 ts
    (step.1 :: rest.1, rest.2.1, step.2.2 + rest.2.2)

/-!
`StockDataService.getMultipleStockPrices`: the symbol list is processed in
batches of `batchSize = 3`; each batch's `getStockPrice` calls run
concurrently under one `Promise.all`, and a 500 ms delay separates a batch
from the next whenever symbols remain.  The per-symbol fetch outcome is
abstracted as `priceOf : String → Option StockPriceJ` (null = failed fetch);
only non-null results are entered in the result map.
-/

/-- One step of the visible schedule of `getMultipleStockPrices`. -/
inductive BatchEv where
  | batch (syms : List String)
  | delay (ms : Nat)
  deriving DecidableEq

/-- Model of `StockDataService.getMultipleStockPrices`: returns the schedule of
    batches/delays and the association list backing the result map. -/
def getMultipleStockPrices (priceOf : String → Option StockPriceJ) :
    List String → List BatchEv × List (String × StockPriceJ)
  | [] => ([], [])
  | s :: rest =>
    let batch := (s :: rest).take 3
    let fetched := batch.filterMap (fun x => (priceOf x).map (fun p => (x, p)))
    let nxt := getMultipleStockPrices priceOf (rest.drop 2)
    (BatchEv.batch batch :: (if rest.drop 2 = [] then nxt.1 else BatchEv.delay 500 :: nxt.1),
     fetched ++ nxt.2)
  termination_by l => l.length
  decreasing_by simp [List.length_drop]; omega

/-- Spec-side partition (from the claim's words): consecutive chunks of
    three, the last possibly smaller. -/
def chunksOf3Spec : List String → List (List String)
  | [] => []
  | s :: rest => (s :: rest).take 3 :: chunksOf3Spec (rest.drop 2)
  termination_by l => l.length
  decreasing_by simp [List.length_drop]; omega

/-- Spec-side schedule (from the claim's words): the batches in order with a
    500 ms delay between consecutive batches. -/
def withDelaysSpec : List (List String) → List BatchEv
  | [] => []
  | [b] => [BatchEv.batch b]
  | b :: b2 :: rest => BatchEv.batch b :: BatchEv.delay 500 :: withDelaysSpec (b2 :: rest)

/-!
`RealTimeDataProvider` from `data/realTimeData.ts`.  Network sub-calls are
inputs of type `Except String _`: `.error` is a thrown/rejected awaited
value, `.ok` a delivered one.  Each provider operation returns
`Except String _` as seen by its caller, so "never propagates an exception"
is the statement that the result is always `.ok`.
-/

/-- Structure `Investment` (the fields populated by this provider). -/
structure Investment where
  id : String
  ticker : String
  name : String
  price : JsNum
  change : JsNum
  changePercent : JsNum
  type : String
  currentValue : JsNum
  purchaseValue : JsNum
  quantity : JsNum
  deriving DecidableEq

/-- One entry of `USER_PORTFOLIO_CONFIG`. -/
structure InvConfig where
  ticker : String
  quantity : Frac
  purchaseValue : Frac
  deriving DecidableEq

/-- The hardcoded portfolio configuration. -/
def USER_PORTFOLIO_CONFIG : List InvConfig :=
  [⟨"AAPL", 100, 15000⟩, ⟨"GOOGL", 10, 30000⟩, ⟨"MSFT", 50, 15000⟩,
   ⟨"TSLA", 25, 12000⟩, ⟨"NVDA", 30, 18000⟩]

/-- Constant `CACHE_DURATION = 300000` ms (5-minute investment cache). -/
def PROVIDER_CACHE_DURATION : Nat := 300000

/-- The provider's mutable fields `investmentCache`/`lastInvestmentUpdate`. -/
structure ProviderState where
  investmentCache : Option (List Investment)
  lastInvestmentUpdate : Nat
  deriving DecidableEq

/-- The hardcoded per-ticker fallback price table of `getFallbackInvestment`
    (price, change, changePercent). -/
def fallbackPriceTable : List (String × (Frac × Frac × Frac)) :=
  [("AAPL", (175.23, 2.45, 1.42)), ("GOOGL", (2847.56, -15.23, -0.53)),
   ("MSFT", (331.78, 4.12, 1.26)), ("TSLA", (248.50, -3.20, -1.27)),
   ("NVDA", (875.30, 12.45, 1.44))]

/-- Model of `RealTimeDataProvider.getFallbackInvestment`. -/
def getFallbackInvestment (config : InvConfig) (index : Nat) : Investment :=
  let fb := (fallbackPriceTable.lookup config.ticker).getD (100, 0, 0)
  { id := toString (index + 1)
    ticker := config.ticker
    name := getCompanyName config.ticker
    price := some fb.1
    change := some fb.2.1
    changePercent := some fb.2.2
    type := "stock"
    currentValue := some (fb.1.mul config.quantity)
    purchaseValue := some config.purchaseValue
    quantity := some config.quantity }

/-- Model of `RealTimeDataProvider.getFallbackInvestments`. -/
def getFallbackInvestments : List Investment :=
  USER_PORTFOLIO_CONFIG.enum.map (fun p => getFallbackInvestment p.2 p.1)

/-- The INR→USD display conversion constant `0.012`. -/
def INR_TO_USD : Frac := 0.012

/-- The live-data branch of the per-position map in
    `getRealTimeInvestments` (prices converted to USD, rounded via
    `parseFloat((…).toFixed(2))`). -/
def liveInvestment (config : InvConfig) (index : Nat) (sd : StockPriceJ) : Investment :=
  let usdPrice := jsMul sd.current_price (some INR_TO_USD)
  let usdChange := jsMul sd.change (some INR_TO_USD)
  { id := toString (index + 1)
    ticker := config.ticker
    name := sd.name
    price := jsRound2 usdPrice
    change := jsRound2 usdChange
    changePercent := jsRound2 sd.change_percent
    type := "stock"
    currentValue := jsRound2 (jsMul usdPrice (some config.quantity))
    purchaseValue := some config.purchaseValue
    quantity := some config.quantity }

/-- The per-position construction of `getRealTimeInvestments`: live data when
    the fetched map has the ticker, the fallback entry otherwise. -/
def buildInvestments (prices : String → Option StockPriceJ) : List Investment :=
  USER_PORTFOLIO_CONFIG.enum.map (fun p =>
    match prices p.2.ticker with
    | some sd => liveInvestment p.2 p.1 sd
    | none => getFallbackInvestment p.2 p.1)

/-- The fetch-and-rebuild path of `getRealTimeInvestments`, including the
    `catch` that degrades to `getFallbackInvestments` (cache untouched)
    when awaiting the fetch throws. -/
def invFetchPath (fetchRes : Except String (String → Option StockPriceJ))
    (st : ProviderState) (now : Nat) : Except String (List Investment × ProviderState) :=
  match fetchRes with
  | .error _ => .ok (getFallbackInvestments, st)
  | .ok prices =>
    let investments := buildInvestments prices
    .ok (investments, { investmentCache := some investments, lastInvestmentUpdate := now })

/-- Model of `RealTimeDataProvider.getRealTimeInvestments`: serve the cache while it
    is fresh, otherwise fetch and rebuild. -/
def getRealTimeInvestmentsE (fetchRes : Except String (String → Option StockPriceJ))
    (st : ProviderState) (now : Nat) : Except String (List Investment × ProviderState) :=
  match st.investmentCache with
  | some cached =>
    if now - st.lastInvestmentUpdate < PROVIDER_CACHE_DURATION then .ok (cached, st)
    else invFetchPath fetchRes st now
  | none => invFetchPath fetchRes st now

/-- The chart labels of `getRealTimePortfolioData`. -/
def portfolioMonths : List String := ["Jul", "Aug", "Sep", "Oct", "Nov", "Dec"]

/-- The canned catch-branch series of `getRealTimePortfolioData`. -/
def portfolioFallbackData : List JsNum := [some 67, some 72, some 69, some 75, some 78, some 82]

/-- Model of `RealTimeDataProvider.getRealTimePortfolioData`: derive a 6-point series
    from the investments' aggregate performance with per-point jitter
    (`rand i` models the `Math.random()` draw of iteration `i`), clamped to
    [50, 150]; the catch returns the canned series. -/
def getRealTimePortfolioDataE (fetchRes : Except String (String → Option StockPriceJ))
    (st : ProviderState) (now : Nat) (rand : Nat → Frac) :
    Except String ((List JsNum × List String) × ProviderState) :=
  match getRealTimeInvestmentsE fetchRes st now with
  | .error _ => .ok ((portfolioFallbackData, portfolioMonths), st)
  | .ok (investments, st') =>
    let totalCurrentValue := investments.foldl (fun sum inv => jsAdd sum inv.currentValue) (some 0)
    let totalPurchaseValue := investments.foldl (fun sum inv => jsAdd sum inv.purchaseValue) (some 0)
    let currentPerformance :=
      jsMul (jsDiv (jsSub totalCurrentValue totalPurchaseValue) totalPurchaseValue) (some 100)
    let baseValue : JsNum := some 100
    let data := (List.range 6).map (fun i =>
      let variation := (rand i).sub 0.5 |>.mul 10
      let value := jsAdd (jsAdd baseValue (jsDiv (jsMul currentPerformance (some ⟨((i + 1 : Nat) : Int), 1⟩)) (some 6))) (some variation)
      jsMax (some 50) (jsMin (some 150) value))
    .ok ((data, portfolioMonths), st')

/-- The canned market insights returned by `getFallbackInsights`. -/
def getFallbackInsights : List String :=
  ["Tech stocks showing mixed performance amid market volatility",
   "Federal Reserve policy decisions continue to impact market sentiment",
   "Energy sector gains momentum with rising commodity prices"]

/-- The bullet-line test of the insights filter. -/
def isBulletLine (line : String) : Bool :=
  line.trim.startsWith "•" || line.trim.startsWith "-"

/-- Model of `line.replace(/^[•\-]\s*/, '')`: drop one leading bullet character and
    the whitespace after it (anchored at the start of the raw line). -/
def stripBullet (line : String) : String :=
  match line.toList with
  | c :: rest => if c = '•' ∨ c = '-' then String.mk (rest.dropWhile isSpaceJ) else line
  | [] => line

/-- The bullet-point extraction of `getMarketInsights`. -/
def parseInsights (response : String) : List String :=
  ((((response.splitOn "\n").filter isBulletLine).map
      (fun line => (stripBullet line).trim)).filter (fun s => s.length > 0)).take 3

/-- Model of `RealTimeDataProvider.getMarketInsights`: parsed bullets when there are
    any, canned insights otherwise or when the query throws. -/
def getMarketInsightsE (chatRes : Except String String) : Except String (List String) :=
  match chatRes with
  | .error _ => .ok getFallbackInsights
  | .ok response =>
    let insights := parseInsights response
    if insights.length > 0 then .ok insights else .ok getFallbackInsights

/-- Pattern `/(\d+\.?\d*)/` — the exchange-rate extraction pattern. -/
def fxRateRe : List Re :=
  [.group 1 [.plusG Char.isDigit, .optG (fun c => c = '.'), .starG Char.isDigit]]

/-- The canned catch-branch series of `getRealTimeExchangeRates`. -/
def fxFallbackData : List JsNum :=
  [some 83.2, some 83.5, some 83.1, some 83.3, some 83.6, some 83.4, some 83.7]

/-- The `Day 1` … `Day 7` labels. -/
def fxLabels : List String := (List.range 7).map (fun i => "Day " ++ toString (i + 1))

/-- Model of `RealTimeDataProvider.getRealTimeExchangeRates`: extract the first number
    from the reply (default 83.5), jitter it over 7 days (`rand i` models the
    `Math.random()` draw of iteration `i`); the catch returns the canned
    series. -/
def getRealTimeExchangeRatesE (chatRes : Except String String) (rand : Nat → Frac) :
    Except String (List JsNum × List String) :=
  match chatRes with
  | .error _ => .ok (fxFallbackData, fxLabels)
  | .ok response =>
    let rateMatch := reSearch fxRateRe response.toList
    let currentRate : JsNum := match rateMatch with
      | some m => parseFloatJ (capGet m 1)
      | none => some 83.5
    let data := (List.range 7).map (fun i =>
      let variation := (rand i).sub 0.5 |>.mul 2
      jsRound2 (jsAdd currentRate (some variation)))
    .ok (data, fxLabels)

/-!
The `DataContext` coordinator from `contexts/DataContext.tsx`: the
`toggleRealTime` action, the auto-refresh effect that installs the polling
interval only while real-time is enabled, and the derived aggregates of the
`useInvestments` / `usePortfolio` hooks.
-/

/-- The context state fields `toggleRealTime` reads and writes. -/
structure DCState where
  isRealTimeEnabled : Bool
  error : Option String
  deriving DecidableEq

/-- Model of `toggleRealTime`: flip the flag, clear the error, and — when the captured
    flag was false, i.e. the toggle re-enables real time — call
    `refreshData()`.  The `Nat` counts the `refreshData` calls issued by this
    invocation. -/
def toggleRealTime (s : DCState) : DCState × Nat :=
  ({ isRealTimeEnabled := !s.isRealTimeEnabled, error := none },
   if !s.isRealTimeEnabled then 1 else 0)

/-- The auto-refresh effect: with real-time disabled it returns before
    `setInterval`, so no timer exists (`none`); otherwise a 2-minute interval
    is installed. -/
def autoRefreshEffect (isRealTimeEnabled : Bool) : Option Nat :=
  if !isRealTimeEnabled then none else some (2 * 60 * 1000)

/-- The aggregates computed by the `useInvestments` hook. -/
structure InvestmentsView where
  totalValue : JsNum
  totalPurchaseValue : JsNum
  totalGainLoss : JsNum
  totalGainLossPercent : JsNum
  deriving DecidableEq

/-- Model of `useInvestments`: totals by `reduce`, percentage guarded by
    `totalPurchaseValue > 0`. -/
def useInvestmentsView (investments : List Investment) : InvestmentsView :=
  let totalValue := investments.foldl (fun sum inv => jsAdd sum inv.currentValue) (some 0)
  let totalPurchaseValue := investments.foldl (fun sum inv => jsAdd sum inv.purchaseValue) (some 0)
  let totalGainLoss := jsSub totalValue totalPurchaseValue
  let totalGainLossPercent :=
    if jsGt totalPurchaseValue (some 0) then jsMul (jsDiv totalGainLoss totalPurchaseValue) (some 100)
    else some 0
  ⟨totalValue, totalPurchaseValue, totalGainLoss, totalGainLossPercent⟩

/-- JS `data[i] || 0`: out-of-range indexing yields `undefined`, and falsy
    values (`undefined`, `NaN`, `0`) are replaced by `0`. -/
def arrGetOrZero (data : List JsNum) (i : Int) : JsNum :=
  if h : 0 ≤ i ∧ i.toNat < data.length then some ((data.get ⟨i.toNat, h.2⟩).getD 0)
  else some 0

/-- Value `portfolioData.data[portfolioData.data.length - 2] || 0` — the previous
    point used by `usePortfolio`. -/
def portfolioPreviousValue (data : List JsNum) : JsNum :=
  arrGetOrZero data ((data.length : Int) - 2)

/-- The aggregates computed by the `usePortfolio` hook. -/
structure PortfolioView where
  currentValue : JsNum
  change : JsNum
  changePercent : JsNum
  deriving DecidableEq

/-- Model of `usePortfolio`: last and second-to-last points (0 when absent), their
    difference, and the percentage guarded by `previousValue > 0`. -/
def usePortfolioView (data : List JsNum) : PortfolioView :=
  let currentValue := arrGetOrZero data ((data.length : Int) - 1)
  let previousValue := portfolioPreviousValue data
  let change := jsSub currentValue previousValue
  let changePercent :=
    if jsGt previousValue (some 0) then jsMul (jsDiv change previousValue) (some 100)
    else some 0
  ⟨currentValue, change, changePercent⟩

/-!
## Claim theorems
-/

/-- C2: a `getStockPrice` call finding a cache entry younger than the
    120-second TTL returns the identical cached `StockPrice` object, leaves
    the service state untouched, and issues no network request. -/
theorem c2_cache_hit_returns_cached_without_fetch (s : SvcState) (symbol : String)
    (now ts : Nat) (p : StockPriceJ)
    (hc : s.cache symbol = some (p, ts)) (hfresh : now - ts < CACHE_DURATION) :
    callArrive now symbol s = (CallRes.cached p, s, 0) := by
  simp [callArrive, hc, hfresh]

/-- A sample stock quote used to instantiate witnesses. -/
def sampleStock : StockPriceJ :=
  { symbol := "AAPL", name := "Apple Inc.", current_price := some 100, change := some 1,
    change_percent := some 1, previous_close := some 99, open' := some 99, high := some 101,
    low := some 99, volume := some 0, market_cap := "N/A", last_updated := "t0" }

/-- A service state with a single cached AAPL entry fetched at time 1000. -/
def svcWithCache : SvcState :=
  ⟨fun x => if x = "AAPL" then some (sampleStock, 1000) else none, fun _ => none, 0⟩

/-- C2 witness: the theorem instantiated at `svcWithCache` and time 2000. -/
theorem c2_cache_hit_returns_cached_without_fetch_witness :
    svcWithCache.cache "AAPL" = some (sampleStock, 1000) ∧ 2000 - 1000 < CACHE_DURATION ∧
    callArrive 2000 "AAPL" svcWithCache = (CallRes.cached sampleStock, svcWithCache, 0) :=
  ⟨rfl, by decide, c2_cache_hit_returns_cached_without_fetch svcWithCache "AAPL" 2000 1000
    sampleStock rfl (by decide)⟩

/-- The assistant text of the parsing example. -/
def exampleAssistantText : String :=
  "Current Price: ₹2,850.55\nChange: ₹+12.30 (0.43%)\nPrevious Close: ₹2,838.25"

/-- C4: parsing the example assistant text yields a non-null quote with
    current_price 2850.55, change 12.30, change_percent 0.43 and
    previous_close 2838.25. -/
theorem c4_example_text_parses (nowIso : String) :
    (parseStockResponse (QueryResponse.strAnswer exampleAssistantText) "RELIANCE" nowIso).map
      (fun r => (r.current_price, r.change, r.change_percent, r.previous_close)) =
      some (some 2850.55, some 12.30, some 0.43, some 2838.25) := by
  rfl

/-- C5: whenever the mandatory labeled price pattern does not match the
    response text, `parseStockResponse` returns null — never a partial
    quote — regardless of the other patterns. -/
theorem c5_no_price_match_returns_null (content symbol nowIso : String)
    (h : reSearch priceRe content.toList = none) :
    parseStockResponse (QueryResponse.strAnswer content) symbol nowIso = none ∧
    parseStockResponse (QueryResponse.objAnswer content) symbol nowIso = none := by
  have h' : reSearch priceRe content.data = none := h
  constructor <;> simp [parseStockResponse, extractContent, parseStockContent, h']

/-- A text whose change and previous-close patterns match but whose price
    pattern does not. -/
def noPriceText : String := "Change: ₹+12.30 (0.43%)\nPrevious Close: ₹2,838.25"

/-- C5 witness: on `noPriceText` the change and previous-close patterns do
    match, the price pattern does not, and the parse is null. -/
theorem c5_no_price_match_returns_null_witness :
    reSearch priceRe noPriceText.toList = none ∧
    (reSearch changeRe noPriceText.toList).isSome = true ∧
    (reSearch previousCloseRe noPriceText.toList).isSome = true ∧
    parseStockResponse (QueryResponse.strAnswer noPriceText) "TCS" "t0" = none :=
  ⟨rfl, rfl, rfl,
   (c5_no_price_match_returns_null noPriceText "TCS" "t0" rfl).1⟩

/-- While a request for `symbol` is pending and its cache entry stays stale,
    every arriving call awaits the pending promise, changes nothing, and
    issues no network request. -/
theorem runCalls_pending (symbol : String) (pid : Nat) :
    ∀ (ts : List Nat) (s : SvcState), s.pending symbol = some pid →
      (∀ t ∈ ts, cacheFresh s symbol t = false) →
      runCalls symbol s ts = (ts.map (fun _ => CallRes.awaits pid), s, 0) := by
  intro ts
  induction ts with
  | nil => intro s _ _; rfl
  | cons t ts ih =>
    intro s hpend hstale
    have hstep : callArrive t symbol s = (CallRes.awaits pid, s, 0) := by
      have hfresh := hstale t (List.mem_cons_self t ts)
      unfold callArrive callMiss
      unfold cacheFresh at hfresh
      cases hc : s.cache symbol with
      | none => simp [hpend]
      | some pts =>
        rw [hc] at hfresh
        simp only [decide_eq_false_iff_not] at hfresh
        simp [hpend, hfresh]
    have hrest := ih s hpend (fun t' ht' => hstale t' (List.mem_cons_of_mem t ht'))
    simp [runCalls, hstep, hrest]

/-- C1: a burst of N ≥ 1 concurrent `getStockPrice(symbol)` calls, all
    arriving while the cache entry for `symbol` is stale and before the
    fetch settles, issues exactly one network request: the first call
    fetches and stores the in-flight promise, every later call awaits that
    same promise, and settlement — successful or not — removes the pending
    entry. -/
theorem c1_concurrent_calls_one_fetch (symbol : String) (s : SvcState) (t0 : Nat)
    (ts : List Nat) (hpend : s.pending symbol = none)
    (hstale : ∀ t ∈ t0 :: ts, cacheFresh s symbol t = false) :
    (runCalls symbol s (t0 :: ts)).1 =
      CallRes.fetches s.nextId :: ts.map (fun _ => CallRes.awaits s.nextId) ∧
    (runCalls symbol s (t0 :: ts)).2.2 = 1 ∧
    (runCalls symbol s (t0 :: ts)).2.1.pending symbol = some s.nextId ∧
    (∀ (outcome : Option StockPriceJ) (now2 : Nat),
      (settleReq symbol outcome now2 (runCalls symbol s (t0 :: ts)).2.1).pending symbol = none) := by
  have hfresh0 := hstale t0 (List.mem_cons_self t0 ts)
  have hstep : callArrive t0 symbol s =
      (CallRes.fetches s.nextId,
       { s with
          pending := fun x => if x = symbol then some s.nextId else s.pending x
          nextId := s.nextId + 1 }, 1) := by
    unfold callArrive callMiss
    unfold cacheFresh at hfresh0
    cases hc : s.cache symbol with
    | none => simp [hpend]
    | some pts =>
      rw [hc] at hfresh0
      simp only [decide_eq_false_iff_not] at hfresh0
      simp [hpend, hfresh0]
  set s1 : SvcState :=
    { s with
       pending := fun x => if x = symbol then some s.nextId else s.pending x
       nextId := s.nextId + 1 } with hs1
  have hs1pend : s1.pending symbol = some s.nextId := by simp [hs1]
  have hs1stale : ∀ t ∈ ts, cacheFresh s1 symbol t = false := by
    intro t ht
    have := hstale t (List.mem_cons_of_mem t0 ht)
    unfold cacheFresh at this ⊢
    exact this
  have hrest := runCalls_pending symbol s.nextId ts s1 hs1pend hs1stale
  refine ⟨?_, ?_, ?_, ?_⟩
  · simp [runCalls, hstep, hrest]
  · simp [runCalls, hstep, hrest]
  · simp [runCalls, hstep, hrest, hs1pend]
  · intro outcome now2
    cases outcome <;> simp [settleReq]

/-- A service state with empty cache and no pending requests. -/
def svcEmpty : SvcState := ⟨fun _ => none, fun _ => none, 0⟩

/-- C1 witness: three concurrent calls for AAPL against the empty service
    state issue one request; the later two await promise 0; settlement of a
    failed fetch clears the pending entry. -/
theorem c1_concurrent_calls_one_fetch_witness :
    (runCalls "AAPL" svcEmpty [5, 6, 7]).1 =
      [CallRes.fetches 0, CallRes.awaits 0, CallRes.awaits 0] ∧
    (runCalls "AAPL" svcEmpty [5, 6, 7]).2.2 = 1 ∧
    (settleReq "AAPL" none 99 (runCalls "AAPL" svcEmpty [5, 6, 7]).2.1).pending "AAPL" = none :=
  ⟨(c1_concurrent_calls_one_fetch "AAPL" svcEmpty 5 [6, 7] rfl
      (by intro t _; rfl)).1,
   (c1_concurrent_calls_one_fetch "AAPL" svcEmpty 5 [6, 7] rfl
      (by intro t _; rfl)).2.1,
   (c1_concurrent_calls_one_fetch "AAPL" svcEmpty 5 [6, 7] rfl
      (by intro t _; rfl)).2.2.2 none 99⟩

/-- C9: when the price pattern matches, the parse always yields a complete
    quote; absent optional patterns produce the deterministic defaults
    (change/change_percent 0, previous_close = current_price − change,
    volume 0) and the approximated fields are always derived as
    open = previous_close, high = current_price + |change|,
    low = current_price − |change|. -/
theorem c9_defaults_when_optional_absent (content symbol nowIso : String) (pm : Caps)
    (h : reSearch priceRe content.toList = some pm) :
    ∃ r, parseStockResponse (QueryResponse.strAnswer content) symbol nowIso = some r ∧
      (reSearch changeRe content.toList = none → r.change = some 0 ∧ r.change_percent = some 0) ∧
      (reSearch previousCloseRe content.toList = none →
        r.previous_close = jsSub r.current_price r.change) ∧
      (reSearch volumeRe content.toList = none → r.volume = some 0) ∧
      r.open' = r.previous_close ∧
      r.high = jsAdd r.current_price (jsAbs r.change) ∧
      r.low = jsSub r.current_price (jsAbs r.change) := by
  have h' : reSearch priceRe content.data = some pm := h
  cases hc : reSearch changeRe content.data <;>
    cases hp : reSearch previousCloseRe content.data <;>
      cases hv : reSearch volumeRe content.data <;>
        · simp only [parseStockResponse, extractContent, parseStockContent, String.toList]
          rw [h', hc, hp, hv]
          refine ⟨_, rfl, ?_, ?_, ?_, rfl, rfl, rfl⟩ <;> intro hh <;>
            first
            | exact ⟨rfl, rfl⟩
            | rfl
            | simp at hh

/-- A text with only the mandatory price field. -/
def priceOnlyText : String := "Current Price: ₹100"

/-- C9 witness: on a price-only text the parse is a complete quote whose
    optional fields carry the documented defaults. -/
theorem c9_defaults_when_optional_absent_witness :
    reSearch priceRe priceOnlyText.toList = some [(1, "100".toList)] ∧
    reSearch changeRe priceOnlyText.toList = none ∧
    (∃ r, parseStockResponse (QueryResponse.strAnswer priceOnlyText) "SBI" "t0" = some r ∧
      (reSearch changeRe priceOnlyText.toList = none → r.change = some 0 ∧ r.change_percent = some 0) ∧
      (reSearch previousCloseRe priceOnlyText.toList = none →
        r.previous_close = jsSub r.current_price r.change) ∧
      (reSearch volumeRe priceOnlyText.toList = none → r.volume = some 0) ∧
      r.open' = r.previous_close ∧
      r.high = jsAdd r.current_price (jsAbs r.change) ∧
      r.low = jsSub r.current_price (jsAbs r.change)) :=
  ⟨rfl, rfl, c9_defaults_when_optional_absent priceOnlyText "SBI" "t0" [(1, "100".toList)] rfl⟩

/-- The documented fallback table, spelled out position by position with the
    claim's prices and `currentValue = fallback price × quantity`. -/
def fallbackInvestmentsSpec : List Investment :=
  [{ id := "1", ticker := "AAPL", name := "Apple Inc.", price := some 175.23,
     change := some 2.45, changePercent := some 1.42, type := "stock",
     currentValue := some 17523, purchaseValue := some 15000, quantity := some 100 },
   { id := "2", ticker := "GOOGL", name := "Alphabet Inc.", price := some 2847.56,
     change := some (-15.23), changePercent := some (-0.53), type := "stock",
     currentValue := some 28475.6, purchaseValue := some 30000, quantity := some 10 },
   { id := "3", ticker := "MSFT", name := "Microsoft Corporation", price := some 331.78,
     change := some 4.12, changePercent := some 1.26, type := "stock",
     currentValue := some 16589, purchaseValue := some 15000, quantity := some 50 },
   { id := "4", ticker := "TSLA", name := "Tesla Inc.", price := some 248.50,
     change := some (-3.20), changePercent := some (-1.27), type := "stock",
     currentValue := some 6212.5, purchaseValue := some 12000, quantity := some 25 },
   { id := "5", ticker := "NVDA", name := "NVIDIA Corporation", price := some 875.30,
     change := some 12.45, changePercent := some 1.44, type := "stock",
     currentValue := some 26259, purchaseValue := some 18000, quantity := some 30 }]

/-- C3: when every live price lookup yields no data and the investment cache
    is empty or stale, `getRealTimeInvestments` returns exactly the fallback
    table for the 5 configured tickers, with the documented prices, the
    configured quantities and purchase values, and
    `currentValue = fallback price × quantity` (and caches that list). -/
theorem c3_unreachable_backend_full_fallback (prices : String → Option StockPriceJ)
    (st : ProviderState) (now : Nat)
    (hempty : ∀ sym, prices sym = none)
    (hcache : st.investmentCache = none ∨
      PROVIDER_CACHE_DURATION ≤ now - st.lastInvestmentUpdate) :
    getRealTimeInvestmentsE (.ok prices) st now =
      .ok (fallbackInvestmentsSpec,
           { investmentCache := some fallbackInvestmentsSpec, lastInvestmentUpdate := now }) := by
  have hb : buildInvestments prices = fallbackInvestmentsSpec := by
    have hfb : getFallbackInvestments = fallbackInvestmentsSpec := by decide
    rw [← hfb]
    unfold buildInvestments getFallbackInvestments
    simp [hempty]
  cases hcc : st.investmentCache with
  | none => simp [getRealTimeInvestmentsE, hcc, invFetchPath, hb]
  | some cached =>
    cases hcache with
    | inl h => rw [hcc] at h; cases h
    | inr h =>
      have hnot : ¬(now - st.lastInvestmentUpdate < PROVIDER_CACHE_DURATION) := by omega
      simp [getRealTimeInvestmentsE, hcc, hnot, invFetchPath, hb]

/-- C3 witness: the theorem instantiated at an all-null price map and the
    initial provider state. -/
theorem c3_unreachable_backend_full_fallback_witness :
    getRealTimeInvestmentsE (.ok (fun _ => none)) ⟨none, 0⟩ 0 =
      .ok (fallbackInvestmentsSpec,
           { investmentCache := some fallbackInvestmentsSpec, lastInvestmentUpdate := 0 }) :=
  c3_unreachable_backend_full_fallback (fun _ => none) ⟨none, 0⟩ 0 (fun _ => rfl) (.inl rfl)

/-- C8: with real-time enabled, toggling off issues no `refreshData` call and
    removes the polling interval; toggling back on issues exactly one
    `refreshData` call and re-enables the flag. -/
theorem c8_toggle_off_on_single_refresh (s : DCState) (h : s.isRealTimeEnabled = true) :
    (toggleRealTime s).2 = 0 ∧
    (toggleRealTime s).1.isRealTimeEnabled = false ∧
    autoRefreshEffect (toggleRealTime s).1.isRealTimeEnabled = none ∧
    (toggleRealTime (toggleRealTime s).1).2 = 1 ∧
    (toggleRealTime (toggleRealTime s).1).1.isRealTimeEnabled = true := by
  simp [toggleRealTime, autoRefreshEffect, h]

/-- C8 witness: the theorem instantiated at an enabled, error-free state. -/
theorem c8_toggle_off_on_single_refresh_witness :
    (DCState.mk true none).isRealTimeEnabled = true ∧
    (toggleRealTime ⟨true, none⟩).2 = 0 ∧
    autoRefreshEffect (toggleRealTime ⟨true, none⟩).1.isRealTimeEnabled = none ∧
    (toggleRealTime (toggleRealTime ⟨true, none⟩).1).2 = 1 :=
  ⟨rfl,
   (c8_toggle_off_on_single_refresh ⟨true, none⟩ rfl).1,
   (c8_toggle_off_on_single_refresh ⟨true, none⟩ rfl).2.2.1,
   (c8_toggle_off_on_single_refresh ⟨true, none⟩ rfl).2.2.2.1⟩

/-- A JS value that is `≤ 0` is never `> 0` (covers NaN, where both
    comparisons are false). -/
theorem jsLe_zero_not_gt (v : JsNum) (h : jsLe v (some 0) = true) : jsGt v (some 0) = false := by
  cases v with
  | none => rfl
  | some a =>
    simp only [jsLe, Frac.ble, decide_eq_true_eq] at h
    simp only [jsGt, Frac.blt, decide_eq_false_iff_not]
    omega

/-- Unfolding `withDelaysSpec` on a cons: the batch, then a delay exactly when more
    batches follow. -/
theorem withDelaysSpec_cons (b : List String) (l : List (List String)) :
    withDelaysSpec (b :: l) =
      BatchEv.batch b :: (if l = [] then [] else BatchEv.delay 500 :: withDelaysSpec l) := by
  cases l <;> simp [withDelaysSpec]

/-- Lemma: `chunksOf3Spec` is empty exactly on the empty list. -/
theorem chunksOf3Spec_eq_nil_iff (l : List String) : chunksOf3Spec l = [] ↔ l = [] := by
  cases l <;> simp [chunksOf3Spec]

/-- The schedule of `getMultipleStockPrices` is the claim-side one: the
    consecutive 3-chunks with a 500 ms delay between consecutive batches. -/
theorem gmsp_trace_eq (priceOf : String → Option StockPriceJ) :
    ∀ (n : Nat) (syms : List String), syms.length ≤ n →
      (getMultipleStockPrices priceOf syms).1 = withDelaysSpec (chunksOf3Spec syms) := by
  intro n
  induction n with
  | zero =>
    intro syms h
    have : syms = [] := List.eq_nil_of_length_eq_zero (Nat.le_zero.mp h)
    subst this
    simp [getMultipleStockPrices, chunksOf3Spec, withDelaysSpec]
  | succ n ih =>
    intro syms h
    match syms with
    | [] => simp [getMultipleStockPrices, chunksOf3Spec, withDelaysSpec]
    | s :: rest =>
      have hlen : (rest.drop 2).length ≤ n := by
        have := List.length_drop 2 rest
        have h2 : rest.length ≤ n := Nat.le_of_succ_le_succ h
        omega
      have hrec := ih (rest.drop 2) hlen
      rw [getMultipleStockPrices, chunksOf3Spec, withDelaysSpec_cons]
      by_cases hnil : rest.drop 2 = []
      · simp [hnil, chunksOf3Spec_eq_nil_iff, getMultipleStockPrices]
      · simp [hnil, (chunksOf3Spec_eq_nil_iff (rest.drop 2)).not.mpr hnil, hrec]

/-- Every chunk produced by `chunksOf3Spec` is nonempty and has at most 3
    elements. -/
theorem chunksOf3Spec_mem (b : List String) :
    ∀ (n : Nat) (syms : List String), syms.length ≤ n →
      b ∈ chunksOf3Spec syms → b.length ≤ 3 ∧ b ≠ [] := by
  intro n
  induction n with
  | zero =>
    intro syms h hb
    have : syms = [] := List.eq_nil_of_length_eq_zero (Nat.le_zero.mp h)
    subst this
    simp [chunksOf3Spec] at hb
  | succ n ih =>
    intro syms h hb
    match syms with
    | [] => simp [chunksOf3Spec] at hb
    | s :: rest =>
      rw [chunksOf3Spec] at hb
      rcases List.mem_cons.mp hb with hhead | htail
      · subst hhead
        exact ⟨List.length_take_le 3 (s :: rest), by simp⟩
      · have hlen : (rest.drop 2).length ≤ n := by
          have := List.length_drop 2 rest
          have h2 : rest.length ≤ n := Nat.le_of_succ_le_succ h
          omega
        exact ih (rest.drop 2) hlen htail

/-- The result map of `getMultipleStockPrices` holds exactly the symbols
    whose fetch resolved to a non-null price. -/
theorem gmsp_result_keys (priceOf : String → Option StockPriceJ) (x : String) :
    ∀ (n : Nat) (syms : List String), syms.length ≤ n →
      ((∃ p, (x, p) ∈ (getMultipleStockPrices priceOf syms).2) ↔
        x ∈ syms ∧ (priceOf x).isSome = true) := by
  intro n
  induction n with
  | zero =>
    intro syms h
    have : syms = [] := List.eq_nil_of_length_eq_zero (Nat.le_zero.mp h)
    subst this
    simp [getMultipleStockPrices]
  | succ n ih =>
    intro syms h
    match syms with
    | [] => simp [getMultipleStockPrices]
    | s :: rest =>
      have hlen : (rest.drop 2).length ≤ n := by
        have := List.length_drop 2 rest
        have h2 : rest.length ≤ n := Nat.le_of_succ_le_succ h
        omega
      have hrec := ih (rest.drop 2) hlen
      have hr : x ∈ rest ↔ x ∈ rest.take 2 ∨ x ∈ rest.drop 2 := by
        conv_lhs => rw [← List.take_append_drop 2 rest]
        exact List.mem_append
      have hsplit : x ∈ s :: rest ↔ x ∈ (s :: rest).take 3 ∨ x ∈ rest.drop 2 := by
        simp [List.mem_cons, hr, or_assoc]
      rw [getMultipleStockPrices]
      constructor
      · rintro ⟨p, hp⟩
        simp only [List.mem_append] at hp
        rcases hp with hbatch | hrest
        · simp only [List.mem_filterMap, Option.map_eq_some'] at hbatch
          obtain ⟨y, hy, a, ha, heq⟩ := hbatch
          rw [Prod.mk.injEq] at heq
          obtain ⟨rfl, rfl⟩ := heq
          exact ⟨hsplit.mpr (Or.inl hy), by simp [ha]⟩
        · have := hrec.mp ⟨p, hrest⟩
          exact ⟨hsplit.mpr (Or.inr this.1), this.2⟩
      · rintro ⟨hx, hsome⟩
        obtain ⟨p, hp⟩ := Option.isSome_iff_exists.mp hsome
        rcases hsplit.mp hx with hbatch | hrestm
        · refine ⟨p, ?_⟩
          simp only [List.mem_append, List.mem_filterMap, Option.map_eq_some']
          exact Or.inl ⟨x, hbatch, p, hp, rfl⟩
        · obtain ⟨p', hp'⟩ := hrec.mpr ⟨hrestm, hsome⟩
          exact ⟨p', by simp [List.mem_append, hp']⟩

/-- C6: `getMultipleStockPrices` processes the symbol list as consecutive
    batches of 3 (the last possibly smaller, each issued concurrently, so at
    most 3 fetches are in flight), inserts a 500 ms delay between a batch
    and the next whenever symbols remain, and returns a map holding exactly
    the symbols whose fetch resolved to a non-null price — no error on
    partial failure. -/
theorem c6_batching_schedule_and_results (priceOf : String → Option StockPriceJ)
    (syms : List String) :
    (getMultipleStockPrices priceOf syms).1 = withDelaysSpec (chunksOf3Spec syms) ∧
    (∀ b ∈ chunksOf3Spec syms, b.length ≤ 3 ∧ b ≠ []) ∧
    (∀ x : String,
      (∃ p, (x, p) ∈ (getMultipleStockPrices priceOf syms).2) ↔
        x ∈ syms ∧ (priceOf x).isSome = true) :=
  ⟨gmsp_trace_eq priceOf syms.length syms le_rfl,
   fun b hb => chunksOf3Spec_mem b syms.length syms le_rfl hb,
   fun x => gmsp_result_keys priceOf x syms.length syms le_rfl⟩

/-- A price function for the C6 witness: null exactly on "TSLA". -/
def priceOfW (x : String) : Option StockPriceJ :=
  if x = "TSLA" then none else some sampleStock

/-- C6 witness: four symbols with one failing fetch give two batches
    separated by one 500 ms delay; the claim-side chunks obey the size
    bound; AAPL is in the result map and TSLA is not. -/
theorem c6_batching_schedule_and_results_witness :
    (getMultipleStockPrices priceOfW ["AAPL", "GOOGL", "MSFT", "TSLA"]).1 =
      [BatchEv.batch ["AAPL", "GOOGL", "MSFT"], BatchEv.delay 500, BatchEv.batch ["TSLA"]] ∧
    (["AAPL", "GOOGL", "MSFT"].length ≤ 3 ∧ ["AAPL", "GOOGL", "MSFT"] ≠ []) ∧
    (∃ p, ("AAPL", p) ∈ (getMultipleStockPrices priceOfW ["AAPL", "GOOGL", "MSFT", "TSLA"]).2) ∧
    ¬(∃ p, ("TSLA", p) ∈ (getMultipleStockPrices priceOfW ["AAPL", "GOOGL", "MSFT", "TSLA"]).2) :=
  ⟨by
      rw [(c6_batching_schedule_and_results priceOfW ["AAPL", "GOOGL", "MSFT", "TSLA"]).1]
      simp [chunksOf3Spec, withDelaysSpec],
   (c6_batching_schedule_and_results priceOfW ["AAPL", "GOOGL", "MSFT", "TSLA"]).2.1
      ["AAPL", "GOOGL", "MSFT"] (by rw [chunksOf3Spec]; exact List.mem_cons_self _ _),
   ((c6_batching_schedule_and_results priceOfW ["AAPL", "GOOGL", "MSFT", "TSLA"]).2.2
      "AAPL").mpr ⟨by decide, by decide⟩,
   fun hex =>
     by
       have := ((c6_batching_schedule_and_results priceOfW
         ["AAPL", "GOOGL", "MSFT", "TSLA"]).2.2 "TSLA").mp hex
       simp [priceOfW] at this⟩

/-- The fetch-and-rebuild path of the investments operation never errors. -/
theorem invFetchPath_ok (fetchRes : Except String (String → Option StockPriceJ))
    (st : ProviderState) (now : Nat) : ∃ a, invFetchPath fetchRes st now = .ok a := by
  cases fetchRes <;> exact ⟨_, rfl⟩

/-- Operation `getRealTimeInvestments` never errors. -/
theorem getRealTimeInvestmentsE_ok (fetchRes : Except String (String → Option StockPriceJ))
    (st : ProviderState) (now : Nat) : ∃ a, getRealTimeInvestmentsE fetchRes st now = .ok a := by
  unfold getRealTimeInvestmentsE
  cases st.investmentCache with
  | none => exact invFetchPath_ok fetchRes st now
  | some cached =>
    by_cases h : now - st.lastInvestmentUpdate < PROVIDER_CACHE_DURATION
    · exact ⟨(cached, st), by simp [h]⟩
    · simpa [h] using invFetchPath_ok fetchRes st now

/-- C7: for every outcome of the underlying network calls (delivered
    value, thrown/rejected await, unparseable text), the four provider
    operations return normally — live-derived data or their static
    fallbacks — and never surface an `.error` to the caller; in
    particular, a thrown sub-call makes insights, exchange rates and the
    investments fetch path return exactly their fallback datasets. -/
theorem c7_provider_ops_never_throw
    (fetchRes : Except String (String → Option StockPriceJ))
    (chatInsights chatFx : Except String String)
    (st : ProviderState) (now : Nat) (rand1 rand2 : Nat → Frac) :
    (∃ a, getRealTimeInvestmentsE fetchRes st now = .ok a) ∧
    (∃ b, getRealTimePortfolioDataE fetchRes st now rand1 = .ok b) ∧
    (∃ c, getMarketInsightsE chatInsights = .ok c) ∧
    (∃ d, getRealTimeExchangeRatesE chatFx rand2 = .ok d) ∧
    (∀ e, getMarketInsightsE (.error e) = .ok getFallbackInsights) ∧
    (∀ e, getRealTimeExchangeRatesE (.error e) rand2 = .ok (fxFallbackData, fxLabels)) ∧
    (∀ e, invFetchPath (.error e) st now = .ok (getFallbackInvestments, st)) := by
  refine ⟨getRealTimeInvestmentsE_ok fetchRes st now, ?_, ?_, ?_, fun e => rfl, fun e => rfl,
    fun e => rfl⟩
  · unfold getRealTimePortfolioDataE
    obtain ⟨a, ha⟩ := getRealTimeInvestmentsE_ok fetchRes st now
    rw [ha]
    exact ⟨_, rfl⟩
  · cases chatInsights with
    | error e => exact ⟨_, rfl⟩
    | ok response =>
      unfold getMarketInsightsE
      by_cases h : (parseInsights response).length > 0 <;> simp [h]
  · cases chatFx <;> exact ⟨_, rfl⟩

/-- C10: the derived percentages are guarded against division by zero —
    `useInvestments` yields `totalGainLossPercent = 0` whenever
    `totalPurchaseValue ≤ 0` (and the documented quotient otherwise), and
    `usePortfolio` yields `changePercent = 0` whenever the second-to-last
    portfolio point (0 when missing) is `≤ 0`, for every list including the
    empty ones. -/
theorem c10_percentages_guarded :
    (∀ investments : List Investment,
      jsLe (useInvestmentsView investments).totalPurchaseValue (some 0) = true →
        (useInvestmentsView investments).totalGainLossPercent = some 0) ∧
    (∀ investments : List Investment,
      jsGt (useInvestmentsView investments).totalPurchaseValue (some 0) = true →
        (useInvestmentsView investments).totalGainLossPercent =
          jsMul (jsDiv (useInvestmentsView investments).totalGainLoss
            (useInvestmentsView investments).totalPurchaseValue) (some 100)) ∧
    (∀ data : List JsNum,
      jsLe (portfolioPreviousValue data) (some 0) = true →
        (usePortfolioView data).changePercent = some 0) := by
  refine ⟨?_, ?_, ?_⟩
  · intro investments h
    have hg := jsLe_zero_not_gt _ h
    simp only [useInvestmentsView] at hg ⊢
    simp [hg]
  · intro investments h
    simp only [useInvestmentsView] at h ⊢
    simp [h]
  · intro data h
    have hg := jsLe_zero_not_gt _ h
    simp only [usePortfolioView]
    simp [hg]

/-- C10 witness: both hooks at the empty lists, where the totals and the
    previous point are 0, so both percentages are 0. -/
theorem c10_percentages_guarded_witness :
    jsLe (useInvestmentsView []).totalPurchaseValue (some 0) = true ∧
    (useInvestmentsView []).totalGainLossPercent = some 0 ∧
    jsLe (portfolioPreviousValue []) (some 0) = true ∧
    (usePortfolioView []).changePercent = some 0 :=
  ⟨by decide, c10_percentages_guarded.1 [] (by decide), by decide,
   c10_percentages_guarded.2.2 [] (by decide)⟩

end WealthLens
